import Mathlib

/-!
# Game of Life (`src/main.c`): the simulation core

A shallow embedding of the grid, the neighbour count, the generation step,
the tick of the simulation thread and the event handlers of `main`, with the
properties of the specification stated and proved over them.

C `int` values are `Int`; every value that occurs is far below `2^31`, so no
wrap-around is modelled.  C integer division truncates toward zero and is
`Int.tdiv`.
-/

namespace GameOfLife

/-! ## Constants (`#define`s of `main.c`) -/

/-- Window width: `#define WIDTH 800`. -/
def WIDTH : Int := 800

/-- Grid dimension: `#define SIM_PIXEL_RES 16`. -/
def SIM_PIXEL_RES : Int := 16

/-- Gap between drawn cells: `#define SIM_PIXEL_PAD 2`. -/
def SIM_PIXEL_PAD : Int := 2

/-! ## Data model -/

/-- The array `State.pixels`, a `bool [16][16]`.  An index outside `[0,16)` is not
an element of the array, so the type admits no read outside the grid. -/
abbrev Grid := Fin 16 → Fin 16 → Bool

/-- The shared globals: `State.pixels` and the run flag `sim_continue`
(`false` is Paused, `true` is Running). -/
structure Sim where
  pixels : Grid
  sim_continue : Bool

/-- The C test `x >= 0 && x < SIM_PIXEL_RES && y >= 0 && y < SIM_PIXEL_RES`. -/
abbrev inBounds (x y : Int) : Prop :=
  x ≥ 0 ∧ x < SIM_PIXEL_RES ∧ y ≥ 0 ∧ y < SIM_PIXEL_RES

/-- The array element `State.pixels[x][y]` for indices that passed the bounds test. -/
def pixelAt (g : Grid) (x y : Int) (h : inBounds x y) : Bool :=
  g ⟨x.toNat, by
      have h1 := h.1
      have h2 := h.2.1
      simp only [SIM_PIXEL_RES] at h2
      omega⟩
    ⟨y.toNat, by
      have h1 := h.2.2.1
      have h2 := h.2.2.2
      simp only [SIM_PIXEL_RES] at h2
      omega⟩

/-- The store `p[i][j] = v`. -/
def setPixel (p : Grid) (i j : Fin 16) (v : Bool) : Grid :=
  Function.update p i (Function.update (p i) j v)

/-! ## `num_live_neighbours` -/

/-- The body of the inner loop of `num_live_neighbours` for offsets `i`, `j`,
as a transformer of the counter `live_neighbour`. -/
def neighbourStep (g : Grid) (cell_x cell_y : Int) (i j : Int) (live_neighbour : Int) : Int :=
  if i = 0 ∧ j = 0 then
    live_neighbour -- the cell itself: `continue`
  else
    let x := cell_x + i
    let y := cell_y + j
    if h : inBounds x y then
      if pixelAt g x y h then live_neighbour + 1 else live_neighbour
    else live_neighbour

/-- The function `int num_live_neighbours(int cell_x, int cell_y)`: both loops run over
`-1, 0, 1`. -/
def num_live_neighbours (g : Grid) (cell_x cell_y : Int) : Int :=
  [-1, 0, 1].foldl
    (fun live_neighbour i =>
      [-1, 0, 1].foldl (fun live_neighbour j => neighbourStep g cell_x cell_y i j live_neighbour)
        live_neighbour)
    0

/-! ## The rule functions and `sim_next_state` -/

/-- Underpopulation, `cell_death_by_underpopulation`: fewer than two live neighbours. -/
def cell_death_by_underpopulation (g : Grid) (cell_x cell_y : Int) : Bool :=
  decide (num_live_neighbours g cell_x cell_y < 2)

/-- Overpopulation, `cell_death_by_overpopulation`: more than three live neighbours. -/
def cell_death_by_overpopulation (g : Grid) (cell_x cell_y : Int) : Bool :=
  decide (num_live_neighbours g cell_x cell_y > 3)

/-- Reproduction, `cell_creation`: exactly three live neighbours. -/
def cell_creation (g : Grid) (cell_x cell_y : Int) : Bool :=
  decide (num_live_neighbours g cell_x cell_y = 3)

/-- The value stored in `next_state[i][j]` by the first loop nest of
`sim_next_state`; it reads `State.pixels` only. -/
def nextCell (pixels : Grid) (i j : Fin 16) : Bool :=
  if pixels i j then
    !(cell_death_by_underpopulation pixels i j || cell_death_by_overpopulation pixels i j)
  else
    cell_creation pixels i j

/-- The function `void sim_next_state(void)`, as a function from the contents of
`State.pixels` before the call to its contents after it.  The local buffer
`next_state` starts all `false`; the first loop nest fills it cell by cell,
the second loop nest copies it into `State.pixels` cell by cell. -/
def sim_next_state (pixels : Grid) : Grid :=
  let next_state : Grid := fun _ _ => false
  let next_state :=
    (List.finRange 16).foldl
      (fun next_state i =>
        (List.finRange 16).foldl
          (fun next_state j => setPixel next_state i j (nextCell pixels i j))
          next_state)
      next_state
  (List.finRange 16).foldl
    (fun pixels i =>
      (List.finRange 16).foldl
        (fun pixels j => setPixel pixels i j (next_state i j))
        pixels)
    pixels

/-! ## The simulation thread -/

/-- One iteration of the `while (1)` loop of `run_sim`:
`if (*s) sim_next_state();` (the `usleep` that follows touches no state). -/
def run_sim_tick (st : Sim) : Sim :=
  if st.sim_continue then
    { pixels := sim_next_state st.pixels, sim_continue := st.sim_continue }
  else st

/-! ## The event handlers of `main` -/

/-- The `case SDL_KEYDOWN:` branch of `main`; `keys_SPACE` and `keys_S` are
`keys[SDL_SCANCODE_SPACE]` and `keys[SDL_SCANCODE_S]`. -/
def on_keydown (keys_SPACE keys_S : Bool) (st : Sim) : Sim :=
  let sim_continue := true
  let sim_continue := if keys_SPACE then !sim_continue else sim_continue
  if keys_S && !sim_continue then
    { pixels := sim_next_state st.pixels, sim_continue := sim_continue }
  else
    { pixels := st.pixels, sim_continue := sim_continue }

/-- The constant `px_size` of `set_clicked_cell` (and of `draw_grid`). -/
def px_size : Int := (WIDTH - (SIM_PIXEL_RES + 1) * SIM_PIXEL_PAD).tdiv SIM_PIXEL_RES

/-- The constant `pad` of `set_clicked_cell` (and of `draw_grid`). -/
def pad : Int := (WIDTH - ((px_size + SIM_PIXEL_PAD) * SIM_PIXEL_RES)).tdiv 2

/-- The index `(m - pad)/(px_size + SIM_PIXEL_PAD)` that `set_clicked_cell`
computes from one mouse coordinate. -/
def clicked_index (m : Int) : Int := (m - pad).tdiv (px_size + SIM_PIXEL_PAD)

/-- The function `void set_clicked_cell(void)` with the mouse position `(mx, my)` returned by
`SDL_GetMouseState`.  The store `State.pixels[cell_x][cell_y] = true` is made
without any test on the indices; when they are not indices of the array the
store is outside the object and the result is `none`. -/
def set_clicked_cell (pixels : Grid) (mx my : Int) : Option Grid :=
  let cell_x := clicked_index mx
  let cell_y := clicked_index my
  if h : 0 ≤ cell_x ∧ cell_x < 16 ∧ 0 ≤ cell_y ∧ cell_y < 16 then
    some (setPixel pixels ⟨cell_x.toNat, by omega⟩ ⟨cell_y.toNat, by omega⟩ true)
  else none

/-- The `case SDL_MOUSEBUTTONDOWN:` branch of `main`:
`if (!sim_continue) set_clicked_cell();`. -/
def on_mousebuttondown (mx my : Int) (st : Sim) : Option Sim :=
  if !st.sim_continue then
    (set_clicked_cell st.pixels mx my).map
      (fun pixels => { pixels := pixels, sim_continue := st.sim_continue })
  else some st

/-! ## Reference definitions, written from the specification -/

/-- The eight Moore offsets: `{-1,0,1} × {-1,0,1}` without `(0,0)`. -/
def mooreOffsets : Finset (Int × Int) :=
  (({-1, 0, 1} : Finset Int) ×ˢ ({-1, 0, 1} : Finset Int)).filter (fun p => p ≠ (0, 0))

/-- Position `(a, b)` lies inside `[0,16) × [0,16)` and the cell there is alive. -/
def liveInside (g : Grid) (a b : Int) : Prop :=
  ∃ (ha : 0 ≤ a ∧ a < 16) (hb : 0 ≤ b ∧ b < 16),
    g ⟨a.toNat, by omega⟩ ⟨b.toNat, by omega⟩ = true

instance (g : Grid) (a b : Int) : Decidable (liveInside g a b) := by
  unfold liveInside
  infer_instance

/-- The number of live in-bounds Moore neighbours of `(x, y)`: the number of
offsets `(i, j)` of `mooreOffsets` with `(x+i, y+j)` inside the grid and alive. -/
def liveMooreNeighbours (g : Grid) (x y : Int) : Nat :=
  (mooreOffsets.filter (fun p => liveInside g (x + p.1) (y + p.2))).card

/-- The contribution of position `(a, b)` to a neighbour count: `1` when it is
inside the grid and alive, `0` otherwise. -/
def liveBit (g : Grid) (a b : Int) : Int := if liveInside g a b then 1 else 0

/-- The grid whose only live cells are `(cx-1,cy)`, `(cx,cy)`, `(cx+1,cy)`. -/
def blinkerH (cx cy : Nat) : Grid :=
  fun x y => decide (y.val = cy ∧ (x.val + 1 = cx ∨ x.val = cx ∨ x.val = cx + 1))

/-- The grid whose only live cells are `(cx,cy-1)`, `(cx,cy)`, `(cx,cy+1)`. -/
def blinkerV (cx cy : Nat) : Grid :=
  fun x y => decide (x.val = cx ∧ (y.val + 1 = cy ∨ y.val = cy ∨ y.val = cy + 1))

/-- The grid whose only live cells are `(x,y)`, `(x+1,y)`, `(x,y+1)`, `(x+1,y+1)`. -/
def block (x y : Nat) : Grid :=
  fun a b => decide ((a.val = x ∨ a.val = x + 1) ∧ (b.val = y ∨ b.val = y + 1))

/-! ## The two loop nests of `sim_next_state` -/

theorem setPixel_apply (p : Grid) (i j : Fin 16) (v : Bool) (a b : Fin 16) :
    setPixel p i j v a b = if a = i ∧ b = j then v else p a b := by
  unfold setPixel
  by_cases ha : a = i
  · subst ha
    by_cases hb : b = j
    · subst hb; simp
    · simp [Function.update_noteq hb, hb]
  · simp [Function.update_noteq ha, ha]

/-- One row of a copy loop: after the inner loop over `l`, exactly the cells
`(i, j)` with `j ∈ l` hold the source value. -/
theorem foldl_setPixel_row (src : Grid) (i : Fin 16) (l : List (Fin 16)) (d : Grid)
    (a b : Fin 16) :
    (l.foldl (fun d j => setPixel d i j (src i j)) d) a b
      = if a = i ∧ b ∈ l then src a b else d a b := by
  induction l generalizing d with
  | nil => simp
  | cons j l ih =>
    rw [List.foldl_cons, ih, setPixel_apply]
    by_cases ha : a = i
    · subst ha
      by_cases hb : b = j
      · subst hb; simp
      · simp [hb]
    · simp [ha]

/-- A whole loop nest: after the outer loop over `l`, exactly the rows of `l`
hold the source values. -/
theorem foldl_setPixel_rows (src : Grid) (l : List (Fin 16)) (d : Grid) (a b : Fin 16) :
    (l.foldl
        (fun d i => (List.finRange 16).foldl (fun d j => setPixel d i j (src i j)) d) d) a b
      = if a ∈ l then src a b else d a b := by
  induction l generalizing d with
  | nil => simp
  | cons i l ih =>
    rw [List.foldl_cons, ih, foldl_setPixel_row]
    by_cases ha : a = i
    · subst ha; simp
    · simp [ha]

/-- The two loop nests of `sim_next_state` together store `nextCell`, computed
on the grid before the call, in every cell. -/
theorem sim_next_state_apply (g : Grid) (a b : Fin 16) :
    sim_next_state g a b = nextCell g a b := by
  unfold sim_next_state
  rw [foldl_setPixel_rows (fun i j =>
    (List.finRange 16).foldl
      (fun next_state i =>
        (List.finRange 16).foldl
          (fun next_state j => setPixel next_state i j (nextCell g i j))
          next_state)
      (fun _ _ => false) i j)]
  rw [foldl_setPixel_rows (nextCell g)]
  simp

/-! ## The neighbour count -/

theorem liveInside_iff_pixelAt (g : Grid) (a b : Int) :
    liveInside g a b ↔ ∃ h : inBounds a b, pixelAt g a b h = true := by
  constructor
  · rintro ⟨ha, hb, hg⟩
    exact ⟨⟨ha.1, ha.2, hb.1, hb.2⟩, hg⟩
  · rintro ⟨h, hg⟩
    exact ⟨⟨h.1, h.2.1⟩, ⟨h.2.2.1, h.2.2.2⟩, hg⟩

/-- The loop body adds the contribution of the neighbour at offset `(i, j)`
and skips the cell itself. -/
theorem neighbourStep_eq (g : Grid) (x y i j acc : Int) :
    neighbourStep g x y i j acc
      = if i = 0 ∧ j = 0 then acc else acc + liveBit g (x + i) (y + j) := by
  unfold neighbourStep liveBit
  by_cases h0 : i = 0 ∧ j = 0
  · rw [if_pos h0, if_pos h0]
  · rw [if_neg h0, if_neg h0]
    simp only []
    by_cases hb : inBounds (x + i) (y + j)
    · rw [dif_pos hb]
      by_cases hp : pixelAt g (x + i) (y + j) hb = true
      · rw [if_pos hp, if_pos ((liveInside_iff_pixelAt g _ _).2 ⟨hb, hp⟩)]
      · rw [if_neg hp, if_neg (fun hl => hp ((liveInside_iff_pixelAt g _ _).1 hl).2)]
        simp
    · rw [dif_neg hb, if_neg (fun hl => hb ((liveInside_iff_pixelAt g _ _).1 hl).1)]
      simp

/-- The two loops of `num_live_neighbours`, unrolled. -/
theorem num_live_neighbours_eq_sum (g : Grid) (x y : Int) :
    num_live_neighbours g x y
      = liveBit g (x + -1) (y + -1) + liveBit g (x + -1) (y + 0) + liveBit g (x + -1) (y + 1)
        + liveBit g (x + 0) (y + -1) + liveBit g (x + 0) (y + 1)
        + liveBit g (x + 1) (y + -1) + liveBit g (x + 1) (y + 0) + liveBit g (x + 1) (y + 1) := by
  unfold num_live_neighbours
  simp [List.foldl, neighbourStep_eq]

theorem mooreOffsets_eq :
    mooreOffsets
      = {(-1, -1), (-1, 0), (-1, 1), (0, -1), (0, 1), (1, -1), (1, 0), (1, 1)} := by
  decide

/-- The count of the specification, as the same sum of eight contributions. -/
theorem liveMooreNeighbours_eq_sum (g : Grid) (x y : Int) :
    (liveMooreNeighbours g x y : Int)
      = liveBit g (x + -1) (y + -1) + liveBit g (x + -1) (y + 0) + liveBit g (x + -1) (y + 1)
        + liveBit g (x + 0) (y + -1) + liveBit g (x + 0) (y + 1)
        + liveBit g (x + 1) (y + -1) + liveBit g (x + 1) (y + 0) + liveBit g (x + 1) (y + 1) := by
  unfold liveMooreNeighbours
  rw [Finset.card_filter, mooreOffsets_eq, Nat.cast_sum]
  rw [Finset.sum_insert (by decide), Finset.sum_insert (by decide),
    Finset.sum_insert (by decide), Finset.sum_insert (by decide),
    Finset.sum_insert (by decide), Finset.sum_insert (by decide),
    Finset.sum_insert (by decide), Finset.sum_singleton]
  simp only [liveBit, Nat.cast_ite, Nat.cast_one, Nat.cast_zero]
  ring

/-- The code's count is the specification's count, at every position. -/
theorem num_live_neighbours_eq_liveMooreNeighbours (g : Grid) (x y : Int) :
    num_live_neighbours g x y = (liveMooreNeighbours g x y : Int) := by
  rw [num_live_neighbours_eq_sum, liveMooreNeighbours_eq_sum]

/-- A contribution depends on the grid only through the one cell it names. -/
theorem liveBit_congr (g g' : Grid) (a b : Int)
    (h : ∀ p q : Fin 16, (p.val : Int) = a → (q.val : Int) = b → g' p q = g p q) :
    liveBit g' a b = liveBit g a b := by
  unfold liveBit
  refine if_congr ?_ rfl rfl
  unfold liveInside
  constructor
  · rintro ⟨ha, hb, hg⟩
    refine ⟨ha, hb, ?_⟩
    rw [← h _ _ (by simp only []; omega) (by simp only []; omega)]
    exact hg
  · rintro ⟨ha, hb, hg⟩
    refine ⟨ha, hb, ?_⟩
    rw [h _ _ (by simp only []; omega) (by simp only []; omega)]
    exact hg

/-! ## The rule -/

/-- The rule of `nextCell` as a proposition about the code's neighbour count. -/
theorem nextCell_eq_true_iff (g : Grid) (x y : Fin 16) :
    nextCell g x y = true ↔
      (g x y = true ∧ (num_live_neighbours g x y = 2 ∨ num_live_neighbours g x y = 3))
        ∨ (g x y = false ∧ num_live_neighbours g x y = 3) := by
  unfold nextCell cell_death_by_underpopulation cell_death_by_overpopulation cell_creation
  cases hg : g x y
  · simp
  · simp only [if_true, Bool.not_eq_true', Bool.or_eq_false_iff, decide_eq_false_iff_not,
      Bool.not_eq_true, Bool.true_eq_false, false_and, or_false, true_and, Bool.not_eq_eq_eq_not,
      Bool.not_true, Bool.or_eq_false_iff, decide_eq_false_iff_not]
    omega

/-! ## Blinker and block -/

theorem liveBit_blinkerH (cx cy : Nat) (h1 : 1 ≤ cx) (h2 : cx ≤ 14) (h3 : cy ≤ 15) (a b : Int) :
    liveBit (blinkerH cx cy) a b
      = if b = cy ∧ (cx : Int) - 1 ≤ a ∧ a ≤ cx + 1 then 1 else 0 := by
  unfold liveBit
  refine if_congr ?_ rfl rfl
  unfold liveInside blinkerH
  constructor
  · rintro ⟨ha, hb, h⟩
    simp only [decide_eq_true_eq] at h
    omega
  · intro h
    refine ⟨by omega, by omega, ?_⟩
    simp only [decide_eq_true_eq]
    omega

theorem liveBit_blinkerV (cx cy : Nat) (h1 : cx ≤ 15) (h2 : 1 ≤ cy) (h3 : cy ≤ 14) (a b : Int) :
    liveBit (blinkerV cx cy) a b
      = if a = cx ∧ (cy : Int) - 1 ≤ b ∧ b ≤ cy + 1 then 1 else 0 := by
  unfold liveBit
  refine if_congr ?_ rfl rfl
  unfold liveInside blinkerV
  constructor
  · rintro ⟨ha, hb, h⟩
    simp only [decide_eq_true_eq] at h
    omega
  · intro h
    refine ⟨by omega, by omega, ?_⟩
    simp only [decide_eq_true_eq]
    omega

theorem liveBit_block (x0 y0 : Nat) (h1 : x0 ≤ 14) (h2 : y0 ≤ 14) (a b : Int) :
    liveBit (block x0 y0) a b
      = if (x0 : Int) ≤ a ∧ a ≤ x0 + 1 ∧ (y0 : Int) ≤ b ∧ b ≤ y0 + 1 then 1 else 0 := by
  unfold liveBit
  refine if_congr ?_ rfl rfl
  unfold liveInside block
  constructor
  · rintro ⟨ha, hb, h⟩
    simp only [decide_eq_true_eq] at h
    omega
  · intro h
    refine ⟨by omega, by omega, ?_⟩
    simp only [decide_eq_true_eq]
    omega

/-- A horizontal blinker away from the border turns into the vertical one. -/
theorem nextCell_blinkerH (cx cy : Nat) (h1 : 1 ≤ cx) (h2 : cx ≤ 14) (h3 : 1 ≤ cy) (h4 : cy ≤ 14)
    (x y : Fin 16) : nextCell (blinkerH cx cy) x y = blinkerV cx cy x y := by
  have hx := x.isLt
  have hy := y.isLt
  rw [Bool.eq_iff_iff, nextCell_eq_true_iff, num_live_neighbours_eq_sum]
  simp only [liveBit_blinkerH cx cy h1 h2 (by omega), blinkerH, blinkerV, decide_eq_true_eq,
    decide_eq_false_iff_not]
  rcases (by omega : x.val + 3 ≤ cx ∨ x.val + 2 = cx ∨ x.val + 1 = cx ∨ x.val = cx
      ∨ x.val = cx + 1 ∨ x.val = cx + 2 ∨ cx + 3 ≤ x.val) with h | h | h | h | h | h | h <;>
  rcases (by omega : y.val + 3 ≤ cy ∨ y.val + 2 = cy ∨ y.val + 1 = cy ∨ y.val = cy
      ∨ y.val = cy + 1 ∨ y.val = cy + 2 ∨ cy + 3 ≤ y.val) with h' | h' | h' | h' | h' | h' | h' <;>
  simp (disch := omega) only [if_pos, if_neg] <;>
  omega

/-- A vertical blinker away from the border turns into the horizontal one. -/
theorem nextCell_blinkerV (cx cy : Nat) (h1 : 1 ≤ cx) (h2 : cx ≤ 14) (h3 : 1 ≤ cy) (h4 : cy ≤ 14)
    (x y : Fin 16) : nextCell (blinkerV cx cy) x y = blinkerH cx cy x y := by
  have hx := x.isLt
  have hy := y.isLt
  rw [Bool.eq_iff_iff, nextCell_eq_true_iff, num_live_neighbours_eq_sum]
  simp only [liveBit_blinkerV cx cy (by omega) h3 h4, blinkerH, blinkerV, decide_eq_true_eq,
    decide_eq_false_iff_not]
  rcases (by omega : x.val + 3 ≤ cx ∨ x.val + 2 = cx ∨ x.val + 1 = cx ∨ x.val = cx
      ∨ x.val = cx + 1 ∨ x.val = cx + 2 ∨ cx + 3 ≤ x.val) with h | h | h | h | h | h | h <;>
  rcases (by omega : y.val + 3 ≤ cy ∨ y.val + 2 = cy ∨ y.val + 1 = cy ∨ y.val = cy
      ∨ y.val = cy + 1 ∨ y.val = cy + 2 ∨ cy + 3 ≤ y.val) with h' | h' | h' | h' | h' | h' | h' <;>
  simp (disch := omega) only [if_pos, if_neg] <;>
  omega

/-- On a block grid every block cell has exactly three live neighbours and no
other cell has exactly three. -/
theorem num_live_neighbours_block (x0 y0 : Nat) (h1 : x0 ≤ 14) (h2 : y0 ≤ 14) (a b : Fin 16) :
    (block x0 y0 a b = true → num_live_neighbours (block x0 y0) a b = 3)
      ∧ (block x0 y0 a b = false → num_live_neighbours (block x0 y0) a b ≠ 3) := by
  have ha := a.isLt
  have hb := b.isLt
  rw [num_live_neighbours_eq_sum]
  simp only [liveBit_block x0 y0 h1 h2, block, decide_eq_true_eq, decide_eq_false_iff_not]
  rcases (by omega : a.val + 2 ≤ x0 ∨ a.val + 1 = x0 ∨ a.val = x0
      ∨ a.val = x0 + 1 ∨ a.val = x0 + 2 ∨ x0 + 3 ≤ a.val) with h | h | h | h | h | h <;>
  rcases (by omega : b.val + 2 ≤ y0 ∨ b.val + 1 = y0 ∨ b.val = y0
      ∨ b.val = y0 + 1 ∨ b.val = y0 + 2 ∨ y0 + 3 ≤ b.val) with h' | h' | h' | h' | h' | h' <;>
  simp (disch := omega) only [if_pos, if_neg] <;>
  omega

theorem nextCell_block (x0 y0 : Nat) (h1 : x0 ≤ 14) (h2 : y0 ≤ 14) (a b : Fin 16) :
    nextCell (block x0 y0) a b = block x0 y0 a b := by
  have hc := num_live_neighbours_block x0 y0 h1 h2 a b
  rw [Bool.eq_iff_iff, nextCell_eq_true_iff]
  cases hg : block x0 y0 a b
  · have := hc.2 hg
    simp [this]
  · have := hc.1 hg
    simp [this]

/-! ## The click-to-cell mapping -/

theorem px_size_eq : px_size = 47 := by decide

theorem pad_eq : pad = 8 := by decide

theorem clicked_index_eq (m : Int) : clicked_index m = (m - 8).tdiv 49 := by
  unfold clicked_index
  rw [pad_eq, px_size_eq]
  rfl

/-- The computed index is a grid index exactly for coordinates in `(-41, 792)`. -/
theorem clicked_index_inside_iff (m : Int) :
    (0 ≤ clicked_index m ∧ clicked_index m < 16) ↔ (-41 < m ∧ m < 792) := by
  rw [clicked_index_eq]
  rcases Int.le_total 0 (m - 8) with h | h
  · rw [Int.tdiv_eq_ediv h (by decide)]
    omega
  · obtain ⟨k, hk⟩ : ∃ k : Int, m - 8 = -k := ⟨-(m - 8), by omega⟩
    rw [hk, Int.neg_tdiv, Int.tdiv_eq_ediv (by omega) (by decide)]
    omega

/-! ## The claims -/

/-- C1: for every grid `g` and every cell `(x, y)`, the grid left by
`sim_next_state` started on `g` has `(x, y)` alive iff either `g (x, y)` is
alive and the number of live in-bounds Moore neighbours of `(x, y)` in `g` is
2 or 3, or `g (x, y)` is dead and that number is 3.  The count is the
specification's `liveMooreNeighbours`, taken on the input grid `g`. -/
theorem sim_next_state_conway_rule (g : Grid) (x y : Fin 16) :
    sim_next_state g x y = true ↔
      (g x y = true ∧ (liveMooreNeighbours g x y = 2 ∨ liveMooreNeighbours g x y = 3))
        ∨ (g x y = false ∧ liveMooreNeighbours g x y = 3) := by
  rw [sim_next_state_apply, nextCell_eq_true_iff, num_live_neighbours_eq_liveMooreNeighbours]
  norm_cast

/-- C2: for every grid and every cell `(x, y)` of it, `num_live_neighbours`
returns the number of offsets `(i, j)` in `{-1,0,1} × {-1,0,1}`, other than
`(0,0)`, with `(x+i, y+j)` inside `[0,16) × [0,16)` and alive.  No wraparound:
the result is the same on every grid that agrees with `g` on the cells at
distance one from `(x, y)`, whatever the other cells (the opposite edges
among them) hold. -/
theorem num_live_neighbours_counts_moore (g : Grid) (x y : Fin 16) :
    num_live_neighbours g x y = liveMooreNeighbours g x y
      ∧ ∀ g' : Grid,
          (∀ a b : Fin 16,
              (a.val + 1 = x.val ∨ a.val = x.val ∨ a.val = x.val + 1) →
              (b.val + 1 = y.val ∨ b.val = y.val ∨ b.val = y.val + 1) →
              (a.val ≠ x.val ∨ b.val ≠ y.val) → g' a b = g a b) →
          num_live_neighbours g' x y = num_live_neighbours g x y := by
  refine ⟨num_live_neighbours_eq_liveMooreNeighbours g x y, ?_⟩
  intro g' h
  rw [num_live_neighbours_eq_sum, num_live_neighbours_eq_sum]
  have e : ∀ i j : Int, (i = -1 ∨ i = 0 ∨ i = 1) → (j = -1 ∨ j = 0 ∨ j = 1) → (i ≠ 0 ∨ j ≠ 0) →
      liveBit g' ((x.val : Int) + i) ((y.val : Int) + j)
        = liveBit g ((x.val : Int) + i) ((y.val : Int) + j) := by
    intro i j hi hj hij
    apply liveBit_congr
    intro p q hp hq
    exact h p q (by omega) (by omega) (by omega)
  rw [e (-1) (-1) (by omega) (by omega) (by omega), e (-1) 0 (by omega) (by omega) (by omega),
    e (-1) 1 (by omega) (by omega) (by omega), e 0 (-1) (by omega) (by omega) (by omega),
    e 0 1 (by omega) (by omega) (by omega), e 1 (-1) (by omega) (by omega) (by omega),
    e 1 0 (by omega) (by omega) (by omega), e 1 1 (by omega) (by omega) (by omega)]

/-- Witness of C2 at the left-edge cell `(0, 2)` of the blinker grid: setting
the cell `(15, 2)` on the opposite edge alive does not change the count. -/
theorem num_live_neighbours_counts_moore_witness :
    num_live_neighbours (blinkerH 1 2) ((0 : Fin 16) : Nat) ((2 : Fin 16) : Nat)
        = liveMooreNeighbours (blinkerH 1 2) ((0 : Fin 16) : Nat) ((2 : Fin 16) : Nat)
      ∧ num_live_neighbours (setPixel (blinkerH 1 2) 15 2 true) ((0 : Fin 16) : Nat)
          ((2 : Fin 16) : Nat)
        = num_live_neighbours (blinkerH 1 2) ((0 : Fin 16) : Nat) ((2 : Fin 16) : Nat) :=
  ⟨(num_live_neighbours_counts_moore (blinkerH 1 2) 0 2).1,
    (num_live_neighbours_counts_moore (blinkerH 1 2) 0 2).2
      (setPixel (blinkerH 1 2) 15 2 true) (by
        intro a b ha _ _
        rw [setPixel_apply, if_neg]
        rintro ⟨rfl, -⟩
        revert ha
        decide)⟩

/-- C3: one iteration of the loop of `run_sim`: with the flag Paused the grid
is left as it is, with the flag Running the grid becomes `sim_next_state` of
it; the flag is unchanged in both cases. -/
theorem run_sim_tick_paused_running (g : Grid) :
    run_sim_tick { pixels := g, sim_continue := false } = { pixels := g, sim_continue := false }
      ∧ run_sim_tick { pixels := g, sim_continue := true }
          = { pixels := sim_next_state g, sim_continue := true } :=
  ⟨rfl, rfl⟩

/-- C4, the code at the failing input: the `SDL_KEYDOWN` handler, run while
Paused with S held and space not held, first stores `sim_continue = true`, so
the test `keys[SDL_SCANCODE_S] && !sim_continue` fails: the grid is not
advanced (on the blinker grid one generation would change cell `(1, 2)`) and
the run flag is left Running. -/
theorem on_keydown_S_alone_from_paused (g : Grid) :
    on_keydown false true { pixels := g, sim_continue := false }
        = { pixels := g, sim_continue := true }
      ∧ sim_next_state (blinkerH 2 2) 1 2 ≠ blinkerH 2 2 1 2 := by
  refine ⟨rfl, ?_⟩
  rw [sim_next_state_apply]
  decide

/-- C5, the code at the failing input: the `SDL_KEYDOWN` handler, run with
space held and S not held, stores `sim_continue = true` and then negates it, so
the run flag ends Paused whatever it was: from Paused it stays Paused (and from
Running it becomes Paused); the grid is unchanged. -/
theorem on_keydown_space_alone (g : Grid) (s : Bool) :
    on_keydown true false { pixels := g, sim_continue := s }
      = { pixels := g, sim_continue := false } :=
  rfl

/-- C6, the code at the failing input: for the mouse position `(792, 100)`,
inside the 800 x 800 window, `set_clicked_cell` computes `cell_x = 16`, which
is not an index of the 16 x 16 array, and stores there; likewise `cell_y = 16`
for the position `(100, 792)`. -/
theorem set_clicked_cell_right_margin (g : Grid) :
    px_size = 47 ∧ pad = 8
      ∧ clicked_index 792 = 16 ∧ clicked_index 100 = 1
      ∧ set_clicked_cell g 792 100 = none ∧ set_clicked_cell g 100 792 = none := by
  refine ⟨by decide, by decide, by decide, by decide, ?_, ?_⟩
  · unfold set_clicked_cell
    simp only []
    rw [dif_neg]
    decide
  · unfold set_clicked_cell
    simp only []
    rw [dif_neg]
    decide

/-- C7: for every centre `(cx, cy)` with `1 ≤ cx, cy ≤ 14`, one
`sim_next_state` turns the horizontal line `(cx-1,cy), (cx,cy), (cx+1,cy)` into
the vertical line `(cx,cy-1), (cx,cy), (cx,cy+1)`, and a second one gives the
horizontal line back. -/
theorem blinker_period_two (cx cy : Nat) (h1 : 1 ≤ cx) (h2 : cx ≤ 14) (h3 : 1 ≤ cy)
    (h4 : cy ≤ 14) :
    sim_next_state (blinkerH cx cy) = blinkerV cx cy
      ∧ sim_next_state (sim_next_state (blinkerH cx cy)) = blinkerH cx cy := by
  have hv : sim_next_state (blinkerH cx cy) = blinkerV cx cy := by
    funext x y
    rw [sim_next_state_apply, nextCell_blinkerH cx cy h1 h2 h3 h4]
  refine ⟨hv, ?_⟩
  rw [hv]
  funext x y
  rw [sim_next_state_apply, nextCell_blinkerV cx cy h1 h2 h3 h4]

/-- Witness of C7: the line `(1,2), (2,2), (3,2)`, centre `(2, 2)`. -/
theorem blinker_period_two_witness :
    (1 ≤ 2 ∧ 2 ≤ 14)
      ∧ sim_next_state (blinkerH 2 2) = blinkerV 2 2
      ∧ sim_next_state (sim_next_state (blinkerH 2 2)) = blinkerH 2 2 :=
  ⟨by decide, blinker_period_two 2 2 (by decide) (by decide) (by decide) (by decide)⟩

/-- C8: for every `(x, y)` with `0 ≤ x, y ≤ 14`, the grid whose only live cells
are the 2 x 2 block at `(x, y)` is a fixed point of `sim_next_state`; each block
cell has exactly three live neighbours and no dead cell has exactly three. -/
theorem block_still_life (x y : Nat) (hx : x ≤ 14) (hy : y ≤ 14) :
    sim_next_state (block x y) = block x y
      ∧ ∀ a b : Fin 16,
          (block x y a b = true → num_live_neighbours (block x y) a b = 3)
            ∧ (block x y a b = false → num_live_neighbours (block x y) a b ≠ 3) := by
  refine ⟨?_, num_live_neighbours_block x y hx hy⟩
  funext a b
  rw [sim_next_state_apply, nextCell_block x y hx hy]

/-- Witness of C8: the block in the corner `(14, 14)`, touching two borders. -/
theorem block_still_life_witness :
    (14 ≤ 14)
      ∧ sim_next_state (block 14 14) = block 14 14
      ∧ ∀ a b : Fin 16,
          (block 14 14 a b = true → num_live_neighbours (block 14 14) a b = 3)
            ∧ (block 14 14 a b = false → num_live_neighbours (block 14 14) a b ≠ 3) :=
  ⟨by decide, block_still_life 14 14 (by decide) (by decide)⟩

/-- C9: for every grid `g` and every mouse position whose computed indices are
the in-range cell `(cx, cy)`, the `SDL_MOUSEBUTTONDOWN` handler run while Paused
leaves `(cx, cy)` alive and every other cell as in `g` (so no cell is turned
dead), and run while Running leaves the whole grid as it is; the run flag is
unchanged in both cases. -/
theorem on_mousebuttondown_sets_clicked_cell (g : Grid) (mx my : Int) (cx cy : Fin 16)
    (hx : clicked_index mx = cx.val) (hy : clicked_index my = cy.val) :
    (∃ g' : Grid,
        on_mousebuttondown mx my { pixels := g, sim_continue := false }
            = some { pixels := g', sim_continue := false }
          ∧ g' cx cy = true
          ∧ (∀ a b : Fin 16, (a ≠ cx ∨ b ≠ cy) → g' a b = g a b)
          ∧ (∀ a b : Fin 16, g a b = true → g' a b = true))
      ∧ on_mousebuttondown mx my { pixels := g, sim_continue := true }
          = some { pixels := g, sim_continue := true } := by
  have hcx := cx.isLt
  have hcy := cy.isLt
  refine ⟨⟨setPixel g cx cy true, ?_, ?_, ?_, ?_⟩, rfl⟩
  · unfold on_mousebuttondown set_clicked_cell
    simp only [Bool.not_false, if_true]
    rw [dif_pos (by omega)]
    simp only [Option.map_some', hx, hy, Int.toNat_ofNat, Fin.eta]
  · rw [setPixel_apply]
    simp
  · intro a b hab
    rw [setPixel_apply, if_neg]
    rintro ⟨rfl, rfl⟩
    simp at hab
  · intro a b hg
    rw [setPixel_apply]
    split
    · rfl
    · exact hg

/-- Witness of C9: the mouse position `(60, 110)` is computed to cell `(1, 2)`. -/
theorem on_mousebuttondown_sets_clicked_cell_witness :
    (clicked_index 60 = ((1 : Fin 16).val : Int) ∧ clicked_index 110 = ((2 : Fin 16).val : Int))
      ∧ (∃ g' : Grid,
          on_mousebuttondown 60 110 { pixels := fun _ _ => false, sim_continue := false }
              = some { pixels := g', sim_continue := false }
            ∧ g' 1 2 = true
            ∧ (∀ a b : Fin 16, (a ≠ 1 ∨ b ≠ 2) → g' a b = false)
            ∧ (∀ a b : Fin 16, (fun _ _ => false : Grid) a b = true → g' a b = true))
      ∧ on_mousebuttondown 60 110 { pixels := fun _ _ => false, sim_continue := true }
          = some { pixels := fun _ _ => false, sim_continue := true } :=
  ⟨⟨by decide, by decide⟩,
    on_mousebuttondown_sets_clicked_cell (fun _ _ => false) 60 110 1 2 (by decide) (by decide)⟩

end GameOfLife
